import Mathlib

/-!
Shallow embedding of the CSS selector builder from `src/06-objects-tasks.js`.

The JavaScript class `CssSelector` holds a mutable array `parts` (each part a
record with string fields `type` and `value`), a constant array `order` of the
six category type names, and a `Set` `usedParts` of category names already
used.  We embed:

* a part as a structure with `type` and `value` string fields;
* the builder state as a structure with the `parts` list and the `usedParts`
  set (modelled as a duplicate-free list built by insert-if-absent, matching
  `Set.add` / `Set.has`);
* each category method as a state-passing function
  `CssSelector → String → Except (String × CssSelector) CssSelector`.
  JavaScript `throw new Error(msg)` is embedded as `Except.error (msg, σ)`
  where `σ` is the builder state at the throw site, so that theorems about
  the state observed by a catching caller are expressible;
* `Array.prototype.indexOf` (which returns `-1` when the element is absent,
  a value the validation logic relies on for the `combined` part type) as
  `jsIndexOf : List String → String → Int`;
* `combine` and `stringify` as pure functions, exactly as in the source
  (neither throws, and `stringify` only reads the state).
-/

/-- A selector part: the JS object literal `\x7b type, value \x7d`. -/
structure SelectorPart where
  type : String
  value : String
deriving DecidableEq

/-- The six category type-name strings plus the `combined` tag, as constants
so every use in definitions matches the source literals. -/
def typeElement : String := "element"

/-- Type-name string of id parts. -/
def typeId : String := "id"

/-- Type-name string of class parts (the JS method is named `class`, a
reserved word in Lean, so the embedded method is named `cls`). -/
def typeClass : String := "class"

/-- Type-name string of attribute parts. -/
def typeAttr : String := "attr"

/-- Type-name string of pseudo-class parts. -/
def typePseudoClass : String := "pseudoClass"

/-- Type-name string of pseudo-element parts. -/
def typePseudoElement : String := "pseudoElement"

/-- Type-name string of the opaque part produced by `combine`. -/
def typeCombined : String := "combined"

/-- Builder state: the fields `parts` and `usedParts` of the JS class.
The JS `Set` is embedded as a duplicate-free list. -/
structure CssSelector where
  parts : List SelectorPart
  usedParts : List String
deriving DecidableEq

/-- The constructor `new CssSelector()`: empty parts, empty used set.  The
instance field `this.order` is the same constant array on every instance and
is embedded as the constant `CssSelector.order` below. -/
def CssSelector.new : CssSelector := { parts := [], usedParts := [] }

/-- The `order` array from the constructor (line 119 of the source). -/
def CssSelector.order : List String :=
  [typeElement, typeId, typeClass, typeAttr, typePseudoClass, typePseudoElement]

/-- JavaScript `Array.prototype.indexOf`: index of the first occurrence,
`-1` when absent. -/
def jsIndexOf : List String → String → Int
  | [], _ => -1
  | a :: rest, x =>
    if a = x then 0
    else
      let r := jsIndexOf rest x
      if r = -1 then -1 else r + 1

/-- The singleton-category array from line 134 of the source. -/
def singletonTypes : List String := [typeElement, typeId, typePseudoElement]

/-- JavaScript `Set.prototype.add` on the list model: append if absent. -/
def addSet (l : List String) (x : String) : List String :=
  if x ∈ l then l else l ++ [x]

/-- The ordering error message thrown at line 130 of the source. -/
def orderErrMsg : String :=
  "Selector parts should be arranged in the following order: element, id, class, attribute, pseudo-class, pseudo-element"

/-- The uniqueness error message thrown at line 135 of the source. -/
def uniqueErrMsg : String :=
  "Element, id and pseudo-element should not occur more then one time inside the selector"

/-- `validateOrder(partType)` (lines 123-139): if there is a last part and the
new category's order index is strictly below the last part's, throw the
ordering error; else if the category is a singleton already in `usedParts`,
throw the uniqueness error; else add the category to `usedParts`.  Errors
carry the state at the throw site (no field was mutated before either
throw).  The uniqueness check and the `usedParts` update run in both match
arms because in the source they execute unconditionally after the ordering
check, which itself is guarded by `parts.length > 0`. -/
def CssSelector.validateOrder (s : CssSelector) (partType : String) :
    Except (String × CssSelector) CssSelector :=
  match s.parts.getLast? with
  | some lastPart =>
    if jsIndexOf CssSelector.order partType < jsIndexOf CssSelector.order lastPart.type then
      .error (orderErrMsg, s)
    else if partType ∈ singletonTypes ∧ partType ∈ s.usedParts then
      .error (uniqueErrMsg, s)
    else
      .ok { s with usedParts := addSet s.usedParts partType }
  | none =>
    if partType ∈ singletonTypes ∧ partType ∈ s.usedParts then
      .error (uniqueErrMsg, s)
    else
      .ok { s with usedParts := addSet s.usedParts partType }

/-- `element(value)` (lines 141-145): validate, then push an unprefixed part. -/
def CssSelector.element (s : CssSelector) (value : String) :
    Except (String × CssSelector) CssSelector :=
  (s.validateOrder typeElement).map fun s2 =>
    { s2 with parts := s2.parts ++ [{ type := typeElement, value := value }] }

/-- `id(value)` (lines 147-151): validate, then push a part prefixed `#`. -/
def CssSelector.id (s : CssSelector) (value : String) :
    Except (String × CssSelector) CssSelector :=
  (s.validateOrder typeId).map fun s2 =>
    { s2 with parts := s2.parts ++ [{ type := typeId, value := "#" ++ value }] }

/-- `class(value)` (lines 153-157; named `cls` here because `class` is a Lean
keyword): validate, then push a part prefixed `.`. -/
def CssSelector.cls (s : CssSelector) (value : String) :
    Except (String × CssSelector) CssSelector :=
  (s.validateOrder typeClass).map fun s2 =>
    { s2 with parts := s2.parts ++ [{ type := typeClass, value := "." ++ value }] }

/-- `attr(value)` (lines 159-163): validate, then push a bracketed part. -/
def CssSelector.attr (s : CssSelector) (value : String) :
    Except (String × CssSelector) CssSelector :=
  (s.validateOrder typeAttr).map fun s2 =>
    { s2 with parts := s2.parts ++ [{ type := typeAttr, value := "[" ++ value ++ "]" }] }

/-- `pseudoClass(value)` (lines 165-169): validate, then push a `:` part. -/
def CssSelector.pseudoClass (s : CssSelector) (value : String) :
    Except (String × CssSelector) CssSelector :=
  (s.validateOrder typePseudoClass).map fun s2 =>
    { s2 with parts := s2.parts ++ [{ type := typePseudoClass, value := ":" ++ value }] }

/-- `pseudoElement(value)` (lines 171-175): validate, then push a `::` part. -/
def CssSelector.pseudoElement (s : CssSelector) (value : String) :
    Except (String × CssSelector) CssSelector :=
  (s.validateOrder typePseudoElement).map fun s2 =>
    { s2 with parts := s2.parts ++ [{ type := typePseudoElement, value := "::" ++ value }] }

/-- `stringify()` (lines 186-194): empty string for no parts; the stored
opaque value when the first part is `combined`; otherwise the concatenation
of every part's value with no separator. -/
def CssSelector.stringify (s : CssSelector) : String :=
  match s.parts with
  | [] => ""
  | p :: _ =>
    if p.type = typeCombined then p.value
    else String.join (s.parts.map SelectorPart.value)

/-- static `combine(selector1, combinator, selector2)` (lines 177-184): a
fresh builder holding one `combined` part whose value is the two stringified
selectors around the combinator, one space each side. -/
def CssSelector.combine (selector1 : CssSelector) (combinator : String)
    (selector2 : CssSelector) : CssSelector :=
  { parts := [{ type := typeCombined,
                value := selector1.stringify ++ " " ++ combinator ++ " " ++ selector2.stringify }],
    usedParts := [] }

/-- Facade `cssSelectorBuilder.element` (lines 198-200). -/
def cssSelectorBuilder.element (value : String) : Except (String × CssSelector) CssSelector :=
  CssSelector.new.element value

/-- Facade `cssSelectorBuilder.id` (lines 202-204). -/
def cssSelectorBuilder.id (value : String) : Except (String × CssSelector) CssSelector :=
  CssSelector.new.id value

/-- Facade `cssSelectorBuilder.class` (lines 206-208), named `cls` as above. -/
def cssSelectorBuilder.cls (value : String) : Except (String × CssSelector) CssSelector :=
  CssSelector.new.cls value

/-- Facade `cssSelectorBuilder.attr` (lines 210-212). -/
def cssSelectorBuilder.attr (value : String) : Except (String × CssSelector) CssSelector :=
  CssSelector.new.attr value

/-- Facade `cssSelectorBuilder.pseudoClass` (lines 214-216). -/
def cssSelectorBuilder.pseudoClass (value : String) : Except (String × CssSelector) CssSelector :=
  CssSelector.new.pseudoClass value

/-- Facade `cssSelectorBuilder.pseudoElement` (lines 218-220). -/
def cssSelectorBuilder.pseudoElement (value : String) : Except (String × CssSelector) CssSelector :=
  CssSelector.new.pseudoElement value

/-- Facade `cssSelectorBuilder.combine` (lines 222-224). -/
def cssSelectorBuilder.combine (selector1 : CssSelector) (combinator : String)
    (selector2 : CssSelector) : CssSelector :=
  CssSelector.combine selector1 combinator selector2

/-- A category-method call with its argument, for reasoning about call
sequences on one builder. -/
inductive Call where
  | element (value : String)
  | id (value : String)
  | cls (value : String)
  | attr (value : String)
  | pseudoClass (value : String)
  | pseudoElement (value : String)
deriving DecidableEq

/-- Dispatch a call to the corresponding embedded method. -/
def applyCall (s : CssSelector) : Call → Except (String × CssSelector) CssSelector
  | .element v => s.element v
  | .id v => s.id v
  | .cls v => s.cls v
  | .attr v => s.attr v
  | .pseudoClass v => s.pseudoClass v
  | .pseudoElement v => s.pseudoElement v

/-- The type-name string a call passes to `validateOrder`. -/
def Call.typeName : Call → String
  | .element _ => typeElement
  | .id _ => typeId
  | .cls _ => typeClass
  | .attr _ => typeAttr
  | .pseudoClass _ => typePseudoClass
  | .pseudoElement _ => typePseudoElement

/-- The rendered (already prefixed) value a call pushes on success. -/
def Call.rendered : Call → String
  | .element v => v
  | .id v => "#" ++ v
  | .cls v => "." ++ v
  | .attr v => "[" ++ v ++ "]"
  | .pseudoClass v => ":" ++ v
  | .pseudoElement v => "::" ++ v

/-- The part a call pushes on success. -/
def Call.renderPart (c : Call) : SelectorPart := { type := c.typeName, value := c.rendered }

/-- Category order-index of a call. -/
def Call.idx (c : Call) : Int := jsIndexOf CssSelector.order c.typeName

/-- Run a sequence of calls left to right, stopping at the first error. -/
def runCalls (s : CssSelector) : List Call → Except (String × CssSelector) CssSelector
  | [] => .ok s
  | c :: rest =>
    match applyCall s c with
    | .error e => .error e
    | .ok s2 => runCalls s2 rest

/-- The builder state reached after successfully running `calls` from the
empty builder: the rendered parts in order, and the used set as the JS `Set`
would hold it. -/
def buildState (calls : List Call) : CssSelector :=
  { parts := calls.map Call.renderPart,
    usedParts := (calls.map Call.typeName).foldl addSet [] }

/-- The two hypotheses of claim C1 on a call list: non-decreasing category
order indices, and each singleton category used at most once. -/
def ValidCalls (calls : List Call) : Prop :=
  List.Chain' (fun a b =>
    jsIndexOf CssSelector.order a.typeName ≤ jsIndexOf CssSelector.order b.typeName) calls ∧
  ∀ t ∈ singletonTypes, (calls.map Call.typeName).count t ≤ 1

/-- Parts appear in non-decreasing category-order index (the first invariant
of the data model). -/
def OrderedParts (s : CssSelector) : Prop :=
  List.Chain' (fun p q =>
    jsIndexOf CssSelector.order p.type ≤ jsIndexOf CssSelector.order q.type) s.parts

/-- Each singleton category appears at most once among the parts (the second
invariant of the data model). -/
def SingletonOnce (s : CssSelector) : Prop :=
  ∀ t ∈ singletonTypes, (s.parts.map SelectorPart.type).count t ≤ 1

/-- Auxiliary coupling invariant: every appended part's category has been
recorded in `usedParts`. -/
def UsedCovers (s : CssSelector) : Prop :=
  ∀ p ∈ s.parts, p.type ∈ s.usedParts

/-- Builder states reachable from the constructor by successful category
calls: exactly the non-combined builders the facade can produce. -/
inductive Reachable : CssSelector → Prop where
  | base : Reachable CssSelector.new
  | step {s s2 : CssSelector} {c : Call} :
      Reachable s → applyCall s c = .ok s2 → Reachable s2

/-- The worked facade example from the source file header, as the call list
`id('main').class('container').class('editable')`. -/
def demoCalls : List Call :=
  [Call.id ("main"), Call.cls ("container"), Call.cls ("editable")]

/-- The builder state after `cssSelectorBuilder.id('x')`: one id part, id
recorded as used. -/
def sAfterIdX : CssSelector :=
  { parts := [{ type := typeId, value := "#x" }], usedParts := [typeId] }

/-- The builder state after `cssSelectorBuilder.id('a')`. -/
def sAfterIdA : CssSelector :=
  { parts := [{ type := typeId, value := "#a" }], usedParts := [typeId] }

/-- The builder state after `cssSelectorBuilder.element('a').id('b')`. -/
def sElementAIdB : CssSelector :=
  { parts := [{ type := typeElement, value := "a" }, { type := typeId, value := "#b" }],
    usedParts := [typeElement, typeId] }

example : (CssSelector.new.id ("main")).map CssSelector.stringify = .ok ("#main") := rfl

example : runCalls CssSelector.new demoCalls = .ok (buildState demoCalls) := rfl

example : (buildState demoCalls).stringify = "#main.container.editable" := by decide

/-! Basic lemmas about the embedded operations. -/

/-- Every category method is `validateOrder` on its type name followed by a
push of its rendered part. -/
theorem applyCall_eq (s : CssSelector) (c : Call) :
    applyCall s c = (s.validateOrder c.typeName).map fun s2 =>
      { s2 with parts := s2.parts ++ [c.renderPart] } := by
  cases c <;> rfl

/-- Membership in the `Set.add` model. -/
theorem mem_addSet {l : List String} {x y : String} :
    y ∈ addSet l x ↔ y ∈ l ∨ y = x := by
  unfold addSet
  by_cases h : x ∈ l
  · rw [if_pos h]
    constructor
    · exact Or.inl
    · rintro (hy | rfl)
      · exact hy
      · exact h
  · rw [if_neg h]
    simp

/-- Membership in a fold of `Set.add` over a list of keys. -/
theorem mem_foldl_addSet (l : List String) (acc : List String) (y : String) :
    y ∈ l.foldl addSet acc ↔ y ∈ acc ∨ y ∈ l := by
  induction l generalizing acc with
  | nil => simp
  | cons a t ih =>
    rw [List.foldl_cons, ih, mem_addSet, List.mem_cons]
    tauto

/-- The pushed part's type is the call's type name. -/
theorem renderPart_type (c : Call) : c.renderPart.type = c.typeName := rfl

/-- No category call carries the opaque `combined` type name. -/
theorem typeName_ne_combined (c : Call) : c.typeName ≠ typeCombined := by
  cases c <;> simp only [Call.typeName] <;> decide

/-- Every category's order index is non-negative. -/
theorem idx_nonneg (c : Call) : 0 ≤ jsIndexOf CssSelector.order c.typeName := by
  cases c <;> simp only [Call.typeName] <;> decide

/-- Success characterization of `validateOrder`: when the ordering and
uniqueness checks pass, it returns the state with the category recorded. -/
theorem validateOrder_ok (s : CssSelector) (t : String)
    (hord : ∀ p ∈ s.parts.getLast?,
      ¬ jsIndexOf CssSelector.order t < jsIndexOf CssSelector.order p.type)
    (huniq : ¬ (t ∈ singletonTypes ∧ t ∈ s.usedParts)) :
    s.validateOrder t = .ok { s with usedParts := addSet s.usedParts t } := by
  unfold CssSelector.validateOrder
  split
  · rename_i lastPart heq
    rw [if_neg (hord lastPart heq), if_neg huniq]
  · rw [if_neg huniq]

/-- Inversion of a successful `validateOrder`: the checks passed and the
result is the input state with the category recorded. -/
theorem validateOrder_ok_inv (s : CssSelector) (t : String) (s2 : CssSelector)
    (h : s.validateOrder t = .ok s2) :
    s2 = { s with usedParts := addSet s.usedParts t } ∧
    (∀ p ∈ s.parts.getLast?,
      ¬ jsIndexOf CssSelector.order t < jsIndexOf CssSelector.order p.type) ∧
    ¬ (t ∈ singletonTypes ∧ t ∈ s.usedParts) := by
  unfold CssSelector.validateOrder at h
  split at h
  · rename_i lastPart heq
    split at h
    · exact Except.noConfusion h
    · rename_i hord
      split at h
      · exact Except.noConfusion h
      · rename_i hcond
        injection h with h2
        subst h2
        refine ⟨rfl, ?_, hcond⟩
        intro q hq
        rw [heq] at hq
        injection hq with hq2
        subst hq2
        exact hord
  · rename_i heq
    split at h
    · exact Except.noConfusion h
    · rename_i hcond
      injection h with h2
      subst h2
      refine ⟨rfl, ?_, hcond⟩
      intro q hq
      rw [heq] at hq
      simp at hq

/-- Inversion of a failed `validateOrder`: the error always carries the
input state. -/
theorem validateOrder_error_inv (s : CssSelector) (t m : String) (s2 : CssSelector)
    (h : s.validateOrder t = .error (m, s2)) : s2 = s := by
  unfold CssSelector.validateOrder at h
  split at h
  · split at h
    · injection h with h2
      rw [Prod.mk.injEq] at h2
      exact h2.2.symm
    · split at h
      · injection h with h2
        rw [Prod.mk.injEq] at h2
        exact h2.2.symm
      · exact Except.noConfusion h
  · split at h
    · injection h with h2
      rw [Prod.mk.injEq] at h2
      exact h2.2.symm
    · exact Except.noConfusion h

/-- Membership in the used set of a state built from a call list is
membership among the calls' type names. -/
theorem buildState_usedParts_mem (calls : List Call) (t : String) :
    t ∈ (buildState calls).usedParts ↔ t ∈ calls.map Call.typeName := by
  unfold buildState
  rw [mem_foldl_addSet]
  simp

/-- A state whose first part is not the opaque one stringifies to the
separator-free concatenation of all part values. -/
theorem stringify_noncombined (s : CssSelector) (p : SelectorPart) (l : List SelectorPart)
    (h : s.parts = p :: l) (hp : p.type ≠ typeCombined) :
    s.stringify = String.join (s.parts.map SelectorPart.value) := by
  unfold CssSelector.stringify
  rw [h]
  show (if p.type = typeCombined then p.value else _) = _
  rw [if_neg hp]

/-- Stringifying the state built from a call list yields the concatenation
of the calls' rendered values. -/
theorem stringify_buildState (calls : List Call) :
    (buildState calls).stringify = String.join (calls.map Call.rendered) := by
  cases calls with
  | nil => rfl
  | cons c rest =>
    rw [stringify_noncombined (buildState (c :: rest)) c.renderPart
      (rest.map Call.renderPart) (by simp [buildState]) (typeName_ne_combined c)]
    unfold buildState
    rw [List.map_map]
    rfl

/-- Running one more valid call from a built state extends the built state
by that call. -/
theorem applyCall_buildState (pre : List Call) (c : Call)
    (hord : ∀ p ∈ pre.getLast?,
      jsIndexOf CssSelector.order p.typeName ≤ jsIndexOf CssSelector.order c.typeName)
    (huniq : c.typeName ∈ singletonTypes → c.typeName ∉ pre.map Call.typeName) :
    applyCall (buildState pre) c = .ok (buildState (pre ++ [c])) := by
  rw [applyCall_eq]
  have hv := validateOrder_ok (buildState pre) c.typeName ?_ ?_
  · rw [hv]
    show Except.ok _ = _
    unfold buildState
    congr 1
    simp [List.foldl_append]
  · intro p hp
    have hmap : (buildState pre).parts = pre.map Call.renderPart := rfl
    rw [hmap, List.getLast?_map] at hp
    cases hl : pre.getLast? with
    | none => rw [hl] at hp; simp at hp
    | some c0 =>
      rw [hl] at hp
      injection hp with hp2
      subst hp2
      have := hord c0 hl
      rw [renderPart_type]
      omega
  · rintro ⟨hs, hu⟩
    rw [buildState_usedParts_mem] at hu
    exact huniq hs hu

/-- Running the suffix of a valid call list from the state built from the
prefix succeeds and yields the state built from the whole list. -/
theorem runCalls_of_valid (rest pre : List Call) (h : ValidCalls (pre ++ rest)) :
    runCalls (buildState pre) rest = .ok (buildState (pre ++ rest)) := by
  induction rest generalizing pre with
  | nil => simp [runCalls]
  | cons c rest ih =>
    have hstep : applyCall (buildState pre) c = .ok (buildState (pre ++ [c])) := by
      apply applyCall_buildState
      · intro p hp
        have hch := h.1
        rw [List.chain'_append] at hch
        exact hch.2.2 p hp c rfl
      · intro hs hmem
        have hcount := h.2 c.typeName hs
        rw [List.map_append, List.count_append] at hcount
        have h1 : 0 < (pre.map Call.typeName).count c.typeName :=
          List.count_pos_iff.mpr hmem
        have h2 : 0 < ((c :: rest).map Call.typeName).count c.typeName :=
          List.count_pos_iff.mpr (by simp)
        omega
    unfold runCalls
    rw [hstep]
    show runCalls (buildState (pre ++ [c])) rest = _
    have hvalid : ValidCalls ((pre ++ [c]) ++ rest) := by
      rw [List.append_assoc]
      exact h
    have := ih (pre ++ [c]) hvalid
    rw [List.append_assoc] at this
    exact this

/-- When the ordering check fails, `validateOrder` throws the ordering error
with the untouched input state. -/
theorem validateOrder_order_error (s : CssSelector) (t : String) (p : SelectorPart)
    (hlast : s.parts.getLast? = some p)
    (hlt : jsIndexOf CssSelector.order t < jsIndexOf CssSelector.order p.type) :
    s.validateOrder t = .error (orderErrMsg, s) := by
  unfold CssSelector.validateOrder
  split
  · rename_i lastPart heq
    have hp : lastPart = p := by
      have h2 := heq.symm.trans hlast
      injection h2
    subst hp
    rw [if_pos hlt]
  · rename_i heq
    rw [hlast] at heq
    exact Option.noConfusion heq

/-- C2: `combine(A, c, B).stringify()` is `A.stringify() + " " + c + " " +
B.stringify()`, one space each side of the combinator whatever its content,
for arbitrary builders `A` and `B`; since `A` and `B` are unconstrained the
equation holds recursively for nested `combine` results. -/
theorem combine_stringify_concat (A : CssSelector) (c : String) (B : CssSelector) :
    (CssSelector.combine A c B).stringify
      = A.stringify ++ " " ++ c ++ " " ++ B.stringify := rfl

/-- C3: on a builder with a last part, a category call with order index
strictly below the last part's raises the ordering error, and the state the
error carries is the pre-call state, so no part was appended. -/
theorem lower_category_raises_order_error (s : CssSelector) (c : Call) (p : SelectorPart)
    (hlast : s.parts.getLast? = some p)
    (hlt : jsIndexOf CssSelector.order c.typeName < jsIndexOf CssSelector.order p.type) :
    applyCall s c = .error (orderErrMsg, s) := by
  rw [applyCall_eq, validateOrder_order_error s c.typeName p hlast hlt]
  rfl

/-- Witness for C3 at `id('x').element('y')`: the facade call produces
`sAfterIdX` and the element call on it raises the ordering error. -/
theorem lower_category_raises_order_error_witness :
    cssSelectorBuilder.id ("x") = .ok sAfterIdX ∧
    applyCall sAfterIdX (Call.element ("y")) = .error (orderErrMsg, sAfterIdX) :=
  ⟨rfl, lower_category_raises_order_error sAfterIdX (Call.element ("y"))
    { type := typeId, value := "#x" } rfl (by decide)⟩

/-- C5: a category call that raises either error leaves the builder in its
pre-call state: the error's carried state is the input state, parts and
used-category set included. -/
theorem failed_call_preserves_state (s : CssSelector) (c : Call) (m : String)
    (s2 : CssSelector) (h : applyCall s c = .error (m, s2)) :
    s2 = s ∧ s2.parts = s.parts ∧ s2.usedParts = s.usedParts := by
  rw [applyCall_eq] at h
  cases hv : s.validateOrder c.typeName with
  | error e =>
    rw [hv] at h
    obtain ⟨me, se⟩ := e
    have he : (Except.error (me, se) : Except (String × CssSelector) CssSelector)
        = .error (m, s2) := h
    injection he with he2
    rw [Prod.mk.injEq] at he2
    obtain ⟨hm, hs2⟩ := he2
    have hse := validateOrder_error_inv s c.typeName me se hv
    rw [← hs2, hse]
    exact ⟨rfl, rfl, rfl⟩
  | ok s3 =>
    rw [hv] at h
    exact Except.noConfusion h

/-- Witness for C5 at the erroring call `id('x').element('y')`: the carried
state is exactly the pre-call state. -/
theorem failed_call_preserves_state_witness :
    applyCall sAfterIdX (Call.element ("y")) = .error (orderErrMsg, sAfterIdX) ∧
    (sAfterIdX = sAfterIdX ∧ sAfterIdX.parts = sAfterIdX.parts ∧
      sAfterIdX.usedParts = sAfterIdX.usedParts) :=
  ⟨rfl, failed_call_preserves_state sAfterIdX (Call.element ("y")) orderErrMsg sAfterIdX rfl⟩

/-- C8: `stringify` is a pure total function of the state (so it cannot
raise and has no side effects, and repeated calls agree), and it returns the
empty string on a builder with no parts at all. -/
theorem stringify_empty_of_no_parts (s : CssSelector) (h : s.parts = []) :
    s.stringify = "" := by
  unfold CssSelector.stringify
  rw [h]

/-- Witness for C8 at the empty builder state. -/
theorem stringify_empty_of_no_parts_witness :
    CssSelector.new.parts = [] ∧ CssSelector.new.stringify = "" :=
  ⟨rfl, stringify_empty_of_no_parts CssSelector.new rfl⟩

/-- C4 counterexample: on `element('a').id('b')`, element has already been
used, yet a second `element('c')` call raises the ORDERING error (the
ordering check at line 129 runs before the uniqueness check at line 134),
not the uniqueness error the claim requires. -/
theorem repeated_singleton_counterexample :
    runCalls CssSelector.new [Call.element ("a"), Call.id ("b"), Call.element ("c")]
      = .error (orderErrMsg, sElementAIdB) ∧ orderErrMsg ≠ uniqueErrMsg :=
  ⟨rfl, by decide⟩

/-- When the category is a used singleton, `validateOrder` always throws:
the uniqueness error whenever the ordering check passes, otherwise the
ordering error throws first. -/
theorem validateOrder_used_singleton (s : CssSelector) (t : String)
    (hsing : t ∈ singletonTypes) (hused : t ∈ s.usedParts) :
    (s.validateOrder t = .error (orderErrMsg, s) ∨
     s.validateOrder t = .error (uniqueErrMsg, s)) ∧
    (∀ p ∈ s.parts.getLast?,
      ¬ jsIndexOf CssSelector.order t < jsIndexOf CssSelector.order p.type →
      s.validateOrder t = .error (uniqueErrMsg, s)) := by
  unfold CssSelector.validateOrder
  split
  · rename_i lastPart heq
    by_cases hlt : jsIndexOf CssSelector.order t < jsIndexOf CssSelector.order lastPart.type
    · rw [if_pos hlt]
      refine ⟨Or.inl rfl, ?_⟩
      intro p hp hnlt
      have hp2 : lastPart = p := by
        have h2 := heq.symm.trans hp
        injection h2
      subst hp2
      exact absurd hlt hnlt
    · rw [if_neg hlt, if_pos (And.intro hsing hused)]
      exact ⟨Or.inr rfl, fun _ _ _ => rfl⟩
  · rename_i heq
    rw [if_pos (And.intro hsing hused)]
    exact ⟨Or.inr rfl, fun _ _ _ => rfl⟩

/-- C4 amended: calling an already-used singleton category always raises an
error; it is the uniqueness error exactly when the ordering check passes
(in particular on an immediate repeat such as `id('a').id('b')`), and the
ordering error otherwise. -/
theorem repeated_singleton_raises (s : CssSelector) (c : Call)
    (hsing : c.typeName ∈ singletonTypes) (hused : c.typeName ∈ s.usedParts) :
    (applyCall s c = .error (orderErrMsg, s) ∨
     applyCall s c = .error (uniqueErrMsg, s)) ∧
    (∀ p ∈ s.parts.getLast?,
      ¬ jsIndexOf CssSelector.order c.typeName < jsIndexOf CssSelector.order p.type →
      applyCall s c = .error (uniqueErrMsg, s)) := by
  have h := validateOrder_used_singleton s c.typeName hsing hused
  rw [applyCall_eq]
  constructor
  · cases h.1 with
    | inl h1 => exact Or.inl (by rw [h1]; rfl)
    | inr h1 => exact Or.inr (by rw [h1]; rfl)
  · intro p hp hnlt
    rw [h.2 p hp hnlt]
    rfl

/-- Witness for the amended C4 at `id('a').id('b')`: the second id call
raises the uniqueness error. -/
theorem repeated_singleton_raises_witness :
    (typeId ∈ singletonTypes ∧ typeId ∈ sAfterIdA.usedParts) ∧
    applyCall sAfterIdA (Call.id ("b")) = .error (uniqueErrMsg, sAfterIdA) :=
  ⟨by decide,
    (repeated_singleton_raises sAfterIdA (Call.id ("b")) (by decide) (by decide)).2
      { type := typeId, value := "#a" } rfl (by decide)⟩

/-- C7: each facade entry point equals "new empty builder, then the matching
category method", and the facade combine equals the class-level combine. -/
theorem facade_is_new_builder_call (v : String) (c : String) (A B : CssSelector) :
    cssSelectorBuilder.element v = CssSelector.new.element v ∧
    cssSelectorBuilder.id v = CssSelector.new.id v ∧
    cssSelectorBuilder.cls v = CssSelector.new.cls v ∧
    cssSelectorBuilder.attr v = CssSelector.new.attr v ∧
    cssSelectorBuilder.pseudoClass v = CssSelector.new.pseudoClass v ∧
    cssSelectorBuilder.pseudoElement v = CssSelector.new.pseudoElement v ∧
    cssSelectorBuilder.combine A c B = CssSelector.combine A c B :=
  ⟨rfl, rfl, rfl, rfl, rfl, rfl, rfl⟩

/-- C10: `combine` reads its two argument builders only through
`stringify` (builders with equal stringifications are interchangeable), and
the builder it returns is a fresh record whose single part is built from
those strings alone, with an empty used set — it shares no state with `A` or
`B`; since `combine` and `stringify` are pure state functions, `A` and `B`
themselves are unchanged. -/
theorem combine_reads_only_stringify (A A2 B B2 : CssSelector) (c : String)
    (hA : A.stringify = A2.stringify) (hB : B.stringify = B2.stringify) :
    CssSelector.combine A c B = CssSelector.combine A2 c B2 ∧
    (CssSelector.combine A c B).parts
      = [{ type := typeCombined,
           value := A.stringify ++ " " ++ c ++ " " ++ B.stringify }] ∧
    (CssSelector.combine A c B).usedParts = [] := by
  unfold CssSelector.combine
  rw [hA, hB]
  exact ⟨rfl, rfl, rfl⟩

/-- Witness for C10 with two distinct states that stringify alike. -/
theorem combine_reads_only_stringify_witness :
    sAfterIdX.stringify = { sAfterIdX with usedParts := [] }.stringify ∧
    CssSelector.new.stringify = CssSelector.new.stringify ∧
    (CssSelector.combine sAfterIdX ("+") CssSelector.new
        = CssSelector.combine { sAfterIdX with usedParts := [] } ("+") CssSelector.new ∧
      (CssSelector.combine sAfterIdX ("+") CssSelector.new).parts
        = [{ type := typeCombined,
             value := sAfterIdX.stringify ++ " " ++ "+" ++ " " ++ CssSelector.new.stringify }] ∧
      (CssSelector.combine sAfterIdX ("+") CssSelector.new).usedParts = []) :=
  ⟨rfl, rfl,
    combine_reads_only_stringify sAfterIdX { sAfterIdX with usedParts := [] }
      CssSelector.new CssSelector.new ("+") rfl rfl⟩

/-- C9: the opaque `combined` type name is absent from the order array, so
its index is `-1`; hence on a builder fresh from `combine` any category call
passes the ordering check, a first singleton call passes the uniqueness
check (the used set starts empty), the new part is appended after the opaque
part, and `stringify` still returns the opaque combined string, ignoring the
appended part. -/
theorem combined_builder_accepts_any_call (A B : CssSelector) (cstr : String) (c : Call) :
    jsIndexOf CssSelector.order typeCombined = -1 ∧
    ∃ s2, applyCall (CssSelector.combine A cstr B) c = .ok s2 ∧
      s2.parts = (CssSelector.combine A cstr B).parts ++ [c.renderPart] ∧
      s2.stringify = (CssSelector.combine A cstr B).stringify := by
  refine ⟨by decide, ?_⟩
  have hv := validateOrder_ok (CssSelector.combine A cstr B) c.typeName ?_ ?_
  · rw [applyCall_eq, hv]
    exact ⟨_, rfl, rfl, rfl⟩
  · intro p hp
    have hp2 : SelectorPart.mk typeCombined
        (A.stringify ++ " " ++ cstr ++ " " ++ B.stringify) = p := by
      injection hp
    rw [← hp2]
    have h0 := idx_nonneg c
    have hm1 : jsIndexOf CssSelector.order typeCombined = -1 := by decide
    show ¬ jsIndexOf CssSelector.order c.typeName < jsIndexOf CssSelector.order typeCombined
    rw [hm1]
    omega
  · rintro ⟨hs, hu⟩
    simp [CssSelector.combine] at hu

/-- Inversion of a successful category call: the new state appends exactly
the rendered part and records the category, and both checks passed. -/
theorem applyCall_ok_inv (s : CssSelector) (c : Call) (s2 : CssSelector)
    (h : applyCall s c = .ok s2) :
    s2 = { parts := s.parts ++ [c.renderPart],
           usedParts := addSet s.usedParts c.typeName } ∧
    (∀ p ∈ s.parts.getLast?,
      ¬ jsIndexOf CssSelector.order c.typeName < jsIndexOf CssSelector.order p.type) ∧
    ¬ (c.typeName ∈ singletonTypes ∧ c.typeName ∈ s.usedParts) := by
  rw [applyCall_eq] at h
  cases hv : s.validateOrder c.typeName with
  | error e =>
    rw [hv] at h
    exact Except.noConfusion h
  | ok s3 =>
    rw [hv] at h
    have h3 : Except.ok (ε := String × CssSelector)
        { s3 with parts := s3.parts ++ [c.renderPart] } = .ok s2 := h
    injection h3 with h4
    obtain ⟨hs3, hord, hcond⟩ := validateOrder_ok_inv s c.typeName s3 hv
    subst hs3
    exact ⟨h4.symm, hord, hcond⟩

/-- A successful category call preserves the ordering, uniqueness and
coupling invariants. -/
theorem invariants_preserved {s s2 : CssSelector} {c : Call}
    (hInv : OrderedParts s ∧ SingletonOnce s ∧ UsedCovers s)
    (h : applyCall s c = .ok s2) :
    OrderedParts s2 ∧ SingletonOnce s2 ∧ UsedCovers s2 := by
  obtain ⟨hs2, hord, hcond⟩ := applyCall_ok_inv s c s2 h
  subst hs2
  refine ⟨?_, ?_, ?_⟩
  · unfold OrderedParts at *
    rw [List.chain'_append]
    refine ⟨hInv.1, List.chain'_singleton _, ?_⟩
    intro x hx y hy
    have hy2 : c.renderPart = y := by injection hy
    rw [← hy2, renderPart_type]
    have := hord x hx
    omega
  · intro t ht
    have hcnt := hInv.2.1 t ht
    show ((s.parts ++ [c.renderPart]).map SelectorPart.type).count t ≤ 1
    rw [List.map_append, List.count_append]
    by_cases hteq : t = c.typeName
    · subst hteq
      have hnu : c.typeName ∉ s.usedParts := fun hu => hcond ⟨ht, hu⟩
      have h0 : (s.parts.map SelectorPart.type).count c.typeName = 0 := by
        rw [List.count_eq_zero]
        intro hmem
        rw [List.mem_map] at hmem
        obtain ⟨p, hp, hpt⟩ := hmem
        exact hnu (hpt ▸ hInv.2.2 p hp)
      rw [h0]
      simp [renderPart_type]
    · have h1 : (([c.renderPart].map SelectorPart.type).count t) = 0 := by
        rw [List.count_eq_zero]
        simp [renderPart_type, hteq]
      omega
  · intro p hp
    rw [List.mem_append] at hp
    cases hp with
    | inl hp =>
      exact mem_addSet.mpr (Or.inl (hInv.2.2 p hp))
    | inr hp =>
      rw [List.mem_singleton] at hp
      subst hp
      exact mem_addSet.mpr (Or.inr (renderPart_type c))

/-- Every reachable builder state satisfies the three invariants. -/
theorem reachable_invariants (s : CssSelector) (h : Reachable s) :
    OrderedParts s ∧ SingletonOnce s ∧ UsedCovers s := by
  induction h with
  | base =>
    refine ⟨?_, ?_, ?_⟩
    · exact List.chain'_nil
    · intro t ht
      simp [CssSelector.new]
    · intro p hp
      simp [CssSelector.new] at hp
  | step hr hok ih => exact invariants_preserved ih hok

/-- C6: every builder state reachable from the constructor by successful
category calls (exactly the non-combined builders, since `combine` always
builds a fresh instance) has parts in non-decreasing category-order index
with each singleton category at most once, and by the definition of
`Reachable` every successful category call preserves this. -/
theorem reachable_ordered_and_singleton (s : CssSelector) (h : Reachable s) :
    OrderedParts s ∧ SingletonOnce s :=
  ⟨(reachable_invariants s h).1, (reachable_invariants s h).2.1⟩

/-- Witness for C6 at the constructor state. -/
theorem reachable_ordered_and_singleton_witness :
    OrderedParts CssSelector.new ∧ SingletonOnce CssSelector.new :=
  reachable_ordered_and_singleton CssSelector.new Reachable.base

/-- C1: any call sequence whose category order indices are non-decreasing
and in which element, id and pseudo-element each occur at most once runs
from the empty builder with no call raising, and the final `stringify()` is
the separator-free concatenation, in append order, of each part's value
wrapped with its category's fixed prefix/suffix. -/
theorem valid_sequence_builds_and_stringifies (calls : List Call)
    (hord : List.Chain' (fun a b =>
      jsIndexOf CssSelector.order a.typeName ≤ jsIndexOf CssSelector.order b.typeName) calls)
    (hsing : ∀ t ∈ singletonTypes, (calls.map Call.typeName).count t ≤ 1) :
    ∃ s, runCalls CssSelector.new calls = .ok s ∧
      s.stringify = String.join (calls.map Call.rendered) := by
  have h := runCalls_of_valid calls [] ⟨hord, hsing⟩
  exact ⟨buildState calls, h, stringify_buildState calls⟩

/-- Witness for C1 at `id('main').class('container').class('editable')`,
whose stringification is `#main.container.editable`. -/
theorem valid_sequence_builds_and_stringifies_witness :
    List.Chain' (fun a b =>
      jsIndexOf CssSelector.order a.typeName ≤ jsIndexOf CssSelector.order b.typeName) demoCalls ∧
    (∀ t ∈ singletonTypes, (demoCalls.map Call.typeName).count t ≤ 1) ∧
    String.join (demoCalls.map Call.rendered) = "#main.container.editable" ∧
    ∃ s, runCalls CssSelector.new demoCalls = .ok s ∧
      s.stringify = String.join (demoCalls.map Call.rendered) :=
  ⟨by
    refine List.Chain'.cons ?_ (List.Chain'.cons ?_ (List.chain'_singleton _)) <;> decide,
    by decide, by decide,
    valid_sequence_builds_and_stringifies demoCalls
      (by refine List.Chain'.cons ?_ (List.Chain'.cons ?_ (List.chain'_singleton _)) <;> decide)
      (by decide)⟩
